import Mathlib

/-
Verification of the zconnect event-definition evaluation engine.

Shallow embedding of:
  - zconnect/util/event_condition_parser.py : the condition AST and its
    evaluation semantics (Condition.evaluate and the Eval* node classes,
    evalKeyword, evaluate_time, evaluate_day, evaluate_period);
  - zconnect/util/redis_util.py : RedisEventDefinitions, the evaluation-time
    and last-result store;
  - zconnect/_models/device.py : AbstractDevice.evaluate_all_event_definitions
    and AbstractDevice.debounce_allow_triggered_event;
  - zconnect/_models/event.py : the fields of EventDefinition and Event that
    those functions consume.

Modelling conventions:
  - Instants are rationals (seconds since the Unix epoch).  The Python code
    reads the wall clock (datetime.datetime.utcnow / datetime.datetime.today)
    inside the functions; the embedding threads an explicit `now` parameter
    instead, and models both clocks as the same UTC clock.
  - Python runtime values flowing through the evaluator are modelled by
    `Value` (floats as rationals, bools, None, dicts as association lists).
  - A raised-and-not-caught Python exception is modelled as `Except.error`.
  - Parsing itself (pyparsing) is not embedded: the device-level evaluator is
    parameterised over the semantics of a condition string, exactly at the
    seam where the source calls Condition(event_definition.condition)
    .evaluate(context, last_eval_time); the condition-level claims are stated
    over the parsed AST (`Expr`) directly.
-/

namespace ZConnect

/-- A Python runtime value as it can appear during condition evaluation:
numeric literals and sensor readings (floats, modelled as rationals), boolean
literals, `None` (the result of a swallowed missing-key lookup), and nested
mapping values (dicts, modelled as association lists). -/
inductive Value where
  | num (q : ℚ)
  | bool (b : Bool)
  | none
  | dict (entries : List (String × Value))
deriving Repr

/-- Python truthiness of a `Value` (used by `if result:` and by the logical
operators): 0, False, None and the empty dict are falsy. -/
def truthy : Value → Bool
  | .num q => q != 0
  | .bool b => b
  | .none => false
  | .dict entries => !entries.isEmpty

/-- Numbers and booleans as Python numbers (bool is an int subclass);
other values are not numbers. -/
def toNum : Value → Option ℚ
  | .num q => some q
  | .bool b => some (if b then 1 else 0)
  | _ => Option.none

mutual

/-- Python `==` on the values the evaluator can produce.  Numbers compare
numerically (True == 1.0 holds), None is equal only to None, dicts compare
key-by-key ignoring order, and values of unrelated types are unequal. -/
def pyEq : Value → Value → Bool
  | .num a, .num b => a == b
  | .num a, .bool b => a == (if b then 1 else 0)
  | .bool a, .num b => (if a then (1 : ℚ) else 0) == b
  | .bool a, .bool b => a == b
  | .none, .none => true
  | .dict xs, .dict ys => pyDictSub xs ys && xs.length == ys.length
  | _, _ => false

/-- Every entry of the first association list has an equal value under the
same key in the second (helper for Python dict equality). -/
def pyDictSub : List (String × Value) → List (String × Value) → Bool
  | [], _ => true
  | (k, v) :: rest, ys => pyLookupEq ys k v && pyDictSub rest ys

/-- The first binding of `k` in the list is `pyEq` to `v` (helper for Python
dict equality). -/
def pyLookupEq : List (String × Value) → String → Value → Bool
  | [], _, _ => false
  | (k2, w) :: rest, k, v => if k2 == k then pyEq v w else pyLookupEq rest k v

end

/-- Uncaught Python exceptions relevant to the embedded code paths. -/
inductive PyExc where
  | keyError
  | typeError
deriving Repr, DecidableEq

/-- Walking a colon-separated reference through nested dicts, as the colon-notation
helper of the source does with `val = val[key]`: a missing key in a dict
raises KeyError; subscripting a non-dict value raises TypeError. -/
def colonLookup : Value → List String → Except PyExc Value
  | v, [] => .ok v
  | .dict entries, k :: rest =>
      match entries.lookup k with
      | some v => colonLookup v rest
      | Option.none => .error .keyError
  | _, _ :: _ => .error .typeError

/-- The comparison operators of the grammar: oneOf of the symbols less-than,
less-equal, greater-than, greater-equal, not-equal, equal. -/
inductive CmpOp where
  | lt
  | le
  | gt
  | ge
  | ne
  | eq
deriving Repr, DecidableEq

/-- The boolean connectives of the grammar. -/
inductive BoolOp where
  | andOp
  | orOp
deriving Repr, DecidableEq

/-- The three reserved keywords of the grammar. -/
inductive Keyword where
  | time
  | day
  | period
deriving Repr, DecidableEq

/-- One entry of EvalComparisonOp.opMap applied to two values, under Python
semantics: equality and inequality never raise on these types; the four order
comparisons require both operands numeric (bool counts as a number) and raise
TypeError otherwise. -/
def pyCmp : CmpOp → Value → Value → Except Unit Bool
  | .eq, a, b => .ok (pyEq a b)
  | .ne, a, b => .ok (!pyEq a b)
  | op, a, b =>
      match toNum a, toNum b with
      | some x, some y =>
          match op with
          | .lt => .ok (decide (x < y))
          | .le => .ok (decide (x ≤ y))
          | .gt => .ok (decide (x > y))
          | .ge => .ok (decide (x ≥ y))
          | _ => .ok false
      | _, _ => .error ()

/-- One entry of EvalLogical.opMap applied to two values: Python `and` / `or`
select one of the two operands by truthiness and never raise. -/
def pyLogical : BoolOp → Value → Value → Value
  | .andOp, a, b => if truthy a then b else a
  | .orOp, a, b => if truthy a then a else b

/-- The parsed condition AST.  Comparison and logical nodes carry the flat
token list the parser hands to EvalComparisonOp / EvalLogical for a chain at
one precedence level: a head operand followed by (operator, operand) pairs.
A numeral token is represented by its rational value (float() of the token). -/
inductive Expr where
  | num (q : ℚ)
  | bool (b : Bool)
  | var (name : String)
  | keyword (k : Keyword)
  | sign (negative : Bool) (e : Expr)
  | cmp (head : Expr) (rest : List (CmpOp × Expr))
  | logical (head : Expr) (rest : List (BoolOp × Expr))
deriving Repr

/-- Midnight (00:00:00) of the day containing the instant `now`: the
embedding of datetime.datetime.today().replace(hour=0, minute=0, second=0,
microsecond=0), with the local clock taken to be the UTC clock. -/
def midnightOf (now : ℚ) : ℚ := 86400 * (⌊now / 86400⌋ : ℤ)

/-- evaluate_time: true iff the last evaluation happened strictly before
"today at 00:00 plus `comparison` seconds" and `now` is at or past that same
instant (last < comparison_ts <= now in the source). -/
def evaluate_time (comparison last_eval_time now : ℚ) : Bool :=
  let comparison_ts := midnightOf now + comparison
  decide (last_eval_time < comparison_ts ∧ comparison_ts ≤ now)

/-- The weekday of the day containing `now`, 0 = Monday .. 6 = Sunday
(1970-01-01 was a Thursday, weekday 3). -/
def weekdayOf (now : ℚ) : ℤ := (⌊now / 86400⌋ + 3) % 7

/-- evaluate_day: true iff now.weekday() equals the comparison value; the
last evaluation time is not consulted. -/
def evaluate_day (comparison : ℤ) (now : ℚ) : Bool := weekdayOf now == comparison

/-- The period_seconds table of evaluate_period: fixed durations in seconds
(timedelta values), with month approximated as 4 weeks and year as 52 weeks. -/
def period_seconds : List (String × ℚ) :=
  [("minutely", 60), ("hourly", 3600), ("daily", 86400),
   ("weekly", 604800), ("monthly", 2419200), ("yearly", 31449600)]

/-- evaluate_period: true iff now minus the last evaluation time strictly
exceeds the fixed duration named by `comparison`; an unknown period name
raises KeyError (caught by evalKeyword). -/
def evaluate_period (comparison : String) (last_eval_time now : ℚ) : Except Unit Bool :=
  match period_seconds.lookup comparison with
  | some d => .ok (decide (now - last_eval_time > d))
  | Option.none => .error ()

/-- The raw token string of a parsed operand converted by float(), as
evalKeyword does with value[2].value for the time keyword: numeral tokens
convert to their value; boolean, variable and keyword tokens are
non-numeric strings on which float() raises. -/
def tokenFloat : Expr → Option ℚ
  | .num q => some q
  | _ => Option.none

/-- The raw token string of a parsed operand converted by int(), for the day
keyword: only integral numeral tokens convert. -/
def tokenInt : Expr → Option ℤ
  | .num q => if q.den == 1 then some q.num else Option.none
  | _ => Option.none

/-- evalKeyword: evaluation of a comparison chain whose first operand is a
keyword.  The source reads value[0].value (the keyword), value[2] (the token
right after the first operator) and dispatches on the keyword, assuming the
operator is equality; the operator itself and any further chain elements are
ignored.  A missing third token is an index error; a token float()/int()
cannot convert raises out of the evaluator; an unknown period name is a
KeyError caught here, giving False. -/
def evalKeyword (k : Keyword) (rest : List (CmpOp × Expr)) (last_eval_time now : ℚ) :
    Except Unit Bool :=
  match rest with
  | [] => .error ()
  | (_, third) :: _ =>
      match k with
      | .time =>
          match tokenFloat third with
          | some c => .ok (evaluate_time c last_eval_time now)
          | Option.none => .error ()
      | .day =>
          match tokenInt third with
          | some c => .ok (evaluate_day c now)
          | Option.none => .error ()
      | .period =>
          match third with
          | .var s =>
              match evaluate_period s last_eval_time now with
              | .ok b => .ok b
              | .error _ => .ok false
          | _ => .ok false

/-- The evaluation context: the dictionary passed to Condition.evaluate. -/
abbrev Ctx := List (String × Value)

/-- Helper for colonSplit: accumulate characters of the current piece
(reversed) and cut at each colon. -/
def colonSplitAux : List Char → List Char → List String
  | [], acc => [String.mk acc.reverse]
  | c :: rest, acc =>
      if c == ':' then String.mk acc.reverse :: colonSplitAux rest []
      else colonSplitAux rest (c :: acc)

/-- Python str.split of a reference on the colon separator, as the colon-notation
helper of the source applies to a variable name; splitting a string without
a colon gives the one-element list, and the empty string gives one empty
piece. -/
def colonSplit (s : String) : List String := colonSplitAux s.toList []

/-- EvalVar.eval: colon-notation lookup of the variable in the context,
swallowing AttributeError and KeyError (the missing-key case), which leaves
the Python return value None; a TypeError from subscripting a non-dict value
along the path is not caught and propagates. -/
def evalVar (context : Ctx) (name : String) : Except Unit Value :=
  match colonLookup (.dict context) (colonSplit name) with
  | .ok v => .ok v
  | .error .keyError => .ok .none
  | .error .typeError => .error ()

mutual

/-- Evaluation of a parsed node against (context, last_eval_time) and the
wall clock `now`: the eval methods of EvalNum, EvalBool, EvalVar,
EvalKeyword (whose bare eval returns the placeholder True), EvalSignOp,
EvalComparisonOp and EvalLogical.  `Except.error` models an exception
escaping evaluation of the node. -/
def Expr.eval : Expr → Ctx → ℚ → ℚ → Except Unit Value
  | .num q, _, _, _ => .ok (.num q)
  | .bool b, _, _, _ => .ok (.bool b)
  | .var name, context, _, _ => evalVar context name
  | .keyword _, _, _, _ => .ok (.bool true)
  | .sign negative e, context, last_eval_time, now =>
      match e.eval context last_eval_time now with
      | .error er => .error er
      | .ok v =>
          match toNum v with
          | some q => .ok (.num (if negative then -q else q))
          | Option.none => .error ()
  | .cmp head rest, context, last_eval_time, now =>
      match head with
      | .keyword k =>
          match evalKeyword k rest last_eval_time now with
          | .ok b => .ok (.bool b)
          | .error er => .error er
      | _ =>
          match head.eval context last_eval_time now with
          | .error er => .error er
          | .ok val1 => .ok (.bool (cmpLoop context last_eval_time now val1 rest))
  | .logical head rest, context, last_eval_time, now =>
      match head.eval context last_eval_time now with
      | .error er => .error er
      | .ok val1 => logLoop context last_eval_time now val1 rest

/-- The operator/operand loop of EvalComparisonOp.eval, run inside its
try-block: any exception while evaluating a right operand or applying an
operator is caught and yields False; a failing comparison step yields False;
otherwise the left value is replaced by the value of the right operand and
chain continues, returning True when exhausted. -/
def cmpLoop : Ctx → ℚ → ℚ → Value → List (CmpOp × Expr) → Bool
  | _, _, _, _, [] => true
  | context, last_eval_time, now, val1, (op, e) :: rest =>
      match e.eval context last_eval_time now with
      | .error _ => false
      | .ok val2 =>
          match pyCmp op val1 val2 with
          | .error _ => false
          | .ok b => if b then cmpLoop context last_eval_time now val2 rest else false

/-- The operator/operand loop of EvalLogical.eval (which has no try-block):
an exception while evaluating a right operand propagates; a step whose
Python and/or result is falsy returns False; otherwise the left value is
replaced by the value of the right operand, returning True when exhausted. -/
def logLoop : Ctx → ℚ → ℚ → Value → List (BoolOp × Expr) → Except Unit Value
  | _, _, _, _, [] => .ok (.bool true)
  | context, last_eval_time, now, val1, (op, e) :: rest =>
      match e.eval context last_eval_time now with
      | .error er => .error er
      | .ok val2 =>
          if truthy (pyLogical op val1 val2) then
            logLoop context last_eval_time now val2 rest
          else
            .ok (.bool false)

end

/-- A Condition object: the parsed AST of the (lower-cased) condition string,
or nothing when the string was empty and no parser was built. -/
structure Condition where
  ast : Option Expr

/-- Condition.evaluate: False for the empty condition, otherwise the value of
the parsed expression (the caller applies truthiness to it). -/
def Condition.evaluate (c : Condition) (context : Ctx) (last_eval_time now : ℚ) :
    Except Unit Value :=
  match c.ast with
  | Option.none => .ok (.bool false)
  | some e => e.eval context last_eval_time now

/-- The first list of characters occurs at the start of the second. -/
def charsStartWith : List Char → List Char → Bool
  | [], _ => true
  | _ :: _, [] => false
  | a :: as, b :: bs => a == b && charsStartWith as bs

/-- The first list of characters occurs contiguously inside the second. -/
def charsContain : List Char → List Char → Bool
  | needle, [] => needle.isEmpty
  | needle, b :: bs => charsStartWith needle (b :: bs) || charsContain needle bs

/-- Python substring membership: `needle in haystack`. -/
def strContains (haystack needle : String) : Bool :=
  charsContain needle.toList haystack.toList

/-- The fields of an EventDefinition consumed by the evaluator: enabled,
condition, debounce_window (seconds, default 600) and its database id; the
remaining model fields are carried for completeness.  The condition field is
declared blank=False, so a validated definition never has an empty condition
string. -/
structure EventDefinition where
  id : ℕ
  enabled : Bool
  ref : String
  condition : String
  debounce_window : ℚ
  scheduled : Bool
  single_trigger : Bool
  deleted : Bool
deriving Repr, DecidableEq

/-- A persisted Event row: which device and definition fired it, whether its
actions all succeeded, and its creation time.  The debounce query filters on
device, definition and created_at only. -/
structure Event where
  device : ℕ
  definition : ℕ
  success : Bool
  created_at : ℚ
deriving Repr, DecidableEq

/-- Setting a field of a redis hash (or a key of a Python dict): the new
binding shadows any previous binding of the same field. -/
def hset {β : Type} (m : List (String × β)) (k : String) (v : β) : List (String × β) :=
  (k, v) :: m.filter (fun p => p.1 != k)

/-- The two redis hashes behind RedisEventDefinitions: evaluation times
(floats) and last results (str(result), observed only through comparison
with the string "True", so the stored Python value is kept). -/
structure RedisEventDefinitions where
  eval_times : List (String × ℚ)
  last_results : List (String × Value)
deriving Repr

/-- get_eval_time / get_redis_eval_time: the stored timestamp for the key,
or first_evaluation_time() = now plus the configured clock-skew offset when
the key is absent. -/
def RedisEventDefinitions.get_eval_time (r : RedisEventDefinitions)
    (clock_skew_offset now : ℚ) (key : String) : ℚ :=
  match r.eval_times.lookup key with
  | some ts => ts
  | Option.none => now + clock_skew_offset

/-- set_eval_time with the default time argument: stores timestamp_now(),
the current UTC unix timestamp truncated to an integer. -/
def RedisEventDefinitions.set_eval_time (r : RedisEventDefinitions) (now : ℚ)
    (key : String) : RedisEventDefinitions :=
  { r with eval_times := hset r.eval_times key ((⌊now⌋ : ℤ) : ℚ) }

/-- get_last_result: bool(state and state == b"True"): true exactly when a
value is stored under the key and str() of it is "True", i.e. the stored
result was the boolean True; an absent key reads as False. -/
def RedisEventDefinitions.get_last_result (r : RedisEventDefinitions)
    (identifier : String) : Bool :=
  match r.last_results.lookup identifier with
  | some (.bool true) => true
  | _ => false

/-- set_last_result: store the result of the condition under the identifier. -/
def RedisEventDefinitions.set_last_result (r : RedisEventDefinitions)
    (identifier : String) (result : Value) : RedisEventDefinitions :=
  { r with last_results := hset r.last_results identifier result }

/-- One observable operation on the evaluation-time store during a device
evaluation pass, together with the value read or written; condition
evaluations are recorded with the last_eval_time value they were given.  The
trace makes the ordering and frame claims of the spec statable. -/
inductive EvalOp where
  | getEvalTimeOp (key : String) (value : ℚ)
  | setEvalTimeOp (key : String) (value : ℚ)
  | evalConditionOp (condition : String) (last_eval_time : ℚ)
  | getLastResultOp (key : String) (value : Bool)
  | setLastResultOp (key : String) (value : Value)
deriving Repr

/-- The fields of an AbstractDevice consumed by the evaluator: its id (used
in store keys and the debounce query), its settings and the settings of its
product (merged into the context), its own event definitions and those
of its product (for check_product). -/
structure AbstractDevice where
  id : ℕ
  settings : Value
  product_settings : Value
  event_defs : List EventDefinition
  product_event_defs : List EventDefinition

/-- debounce_allow_triggered_event: debounce is disabled (always allow) when
the condition text contains "time=="; otherwise the event is allowed exactly
when no Event row for this device and definition was created within the
trailing debounce_window seconds. -/
def AbstractDevice.debounce_allow_triggered_event (dev : AbstractDevice)
    (events : List Event) (now : ℚ) (event_definition : EventDefinition) : Bool :=
  let debounce := !strContains event_definition.condition "time=="
  if debounce then
    let debounced_time := now - event_definition.debounce_window
    let count := (events.filter (fun e =>
      e.device == dev.id && e.definition == event_definition.id &&
        decide (debounced_time ≤ e.created_at))).length
    count == 0
  else
    true

/-- The semantics of a condition string: what
Condition(event_definition.condition).evaluate(context, last_eval_time)
returns (parsing is outside the embedding, so the device-level evaluator is
parameterised over this function). -/
abbrev ConditionSem := String → Ctx → ℚ → ℚ → Except Unit Value

/-- The direct_comparison fast-path guard: the argument is truthy (a
non-empty string) and equals the condition text exactly. -/
def direct_match (direct_comparison condition : String) : Bool :=
  direct_comparison != "" && direct_comparison == condition

/-- The string_matchers pre-filter: an empty (falsy) matcher list filters
nothing; otherwise every matcher must occur in the condition text. -/
def passes_string_matchers (string_matchers : List String) (condition : String) : Bool :=
  string_matchers.isEmpty || string_matchers.all (fun x => strContains condition x)

/-- The context mutation at the top of evaluate_all_event_definitions:
context.setdefault("settings", {}).update(device/product settings).  If a
"settings" key is present but not a dict, .update raises and the call
fails. -/
def withSettings (context : Ctx) (device_settings product_settings : Value) :
    Except Unit Ctx :=
  match context.lookup "settings" with
  | some (.dict entries) =>
      .ok (hset context "settings"
        (.dict (hset (hset entries "device" device_settings) "product" product_settings)))
  | some _ => .error ()
  | Option.none =>
      .ok (hset context "settings"
        (.dict [("device", device_settings), ("product", product_settings)]))

/-- The key under which evaluation state for one (device, definition) pair is
stored: "{device id}:{definition id}". -/
def debounce_key (device_id definition_id : ℕ) : String :=
  toString device_id ++ ":" ++ toString definition_id

/-- The body of the per-definition loop of evaluate_all_event_definitions:
returns whether the definition was appended to the triggered list, the store
state afterwards, and the trace of store/evaluation operations performed.
Disabled definitions and definitions filtered out by string_matchers touch
nothing; the direct_comparison fast path consults only the debounce gate;
the full path reads the evaluation time, writes the new one, evaluates the
condition with the old value, reads the previous result, appends exactly
when the result is truthy, the debounce gate allows and the previous result
was false, and always stores the new result. -/
def eval_def_step (dev : AbstractDevice) (sem : ConditionSem) (events : List Event)
    (clock_skew_offset now : ℚ) (context : Ctx)
    (string_matchers : List String) (direct_comparison : String)
    (s : RedisEventDefinitions) (event_definition : EventDefinition) :
    Except Unit (Bool × RedisEventDefinitions × List EvalOp) :=
  if !event_definition.enabled then
    .ok (false, s, [])
  else if direct_match direct_comparison event_definition.condition then
    .ok (dev.debounce_allow_triggered_event events now event_definition, s, [])
  else if !passes_string_matchers string_matchers event_definition.condition then
    .ok (false, s, [])
  else
    let debounce_key := debounce_key dev.id event_definition.id
    let last_eval_time := s.get_eval_time clock_skew_offset now debounce_key
    let s1 := s.set_eval_time now debounce_key
    match sem event_definition.condition context last_eval_time now with
    | .error er => .error er
    | .ok result =>
        let previous := s1.get_last_result debounce_key
        let appended := truthy result &&
          (dev.debounce_allow_triggered_event events now event_definition && !previous)
        let s2 := s1.set_last_result debounce_key result
        .ok (appended, s2,
          [.getEvalTimeOp debounce_key last_eval_time,
           .setEvalTimeOp debounce_key ((⌊now⌋ : ℤ) : ℚ),
           .evalConditionOp event_definition.condition last_eval_time,
           .getLastResultOp debounce_key previous,
           .setLastResultOp debounce_key result])

/-- The fold of eval_def_step over the definition list, accumulating the
triggered list in evaluation order and the operation trace. -/
def eval_defs_loop (dev : AbstractDevice) (sem : ConditionSem) (events : List Event)
    (clock_skew_offset now : ℚ) (context : Ctx)
    (string_matchers : List String) (direct_comparison : String) :
    List EventDefinition → RedisEventDefinitions →
      List EventDefinition → List EvalOp →
      Except Unit (List EventDefinition × RedisEventDefinitions × List EvalOp)
  | [], s, triggered, ops => .ok (triggered, s, ops)
  | event_definition :: rest, s, triggered, ops =>
      match eval_def_step dev sem events clock_skew_offset now context
          string_matchers direct_comparison s event_definition with
      | .error er => .error er
      | .ok (appended, s', defOps) =>
          eval_defs_loop dev sem events clock_skew_offset now context
            string_matchers direct_comparison rest s'
            (if appended then triggered ++ [event_definition] else triggered)
            (ops ++ defOps)

/-- AbstractDevice.evaluate_all_event_definitions.  An empty (falsy)
definitions argument falls back to the definitions of the device itself;
check_product additionally appends the product-level definitions (the source
merges the two querysets).  The context then receives the device and product
settings, and each definition goes through eval_def_step in order.  Besides
the triggered list the model returns the final store state and the trace of
store operations. -/
def AbstractDevice.evaluate_all_event_definitions (dev : AbstractDevice)
    (sem : ConditionSem) (events : List Event) (clock_skew_offset now : ℚ)
    (context : Ctx) (redis_event_state : RedisEventDefinitions)
    (string_matchers : List String) (direct_comparison : String)
    (definitions : List EventDefinition) (check_product : Bool) :
    Except Unit (List EventDefinition × RedisEventDefinitions × List EvalOp) :=
  let definitions := if definitions.isEmpty then dev.event_defs else definitions
  let definitions :=
    if check_product then definitions ++ dev.product_event_defs else definitions
  match withSettings context dev.settings dev.product_settings with
  | .error er => .error er
  | .ok context' =>
      eval_defs_loop dev sem events clock_skew_offset now context'
        string_matchers direct_comparison definitions redis_event_state [] []

/-- Consecutive calls of evaluate_all_event_definitions sharing the store
state: returns the triggered list of each call in order and the final store
state.  The context is passed afresh each call; the settings merge the
source performs in place on the passed dict is idempotent, so this is the
same context every call sees. -/
def run_evaluations (dev : AbstractDevice) (sem : ConditionSem) (events : List Event)
    (clock_skew_offset now : ℚ) (context : Ctx)
    (string_matchers : List String) (direct_comparison : String)
    (definitions : List EventDefinition) (check_product : Bool) :
    ℕ → RedisEventDefinitions →
      Except Unit (List (List EventDefinition) × RedisEventDefinitions)
  | 0, s => .ok ([], s)
  | n + 1, s =>
      match dev.evaluate_all_event_definitions sem events clock_skew_offset now
          context s string_matchers direct_comparison definitions check_product with
      | .error er => .error er
      | .ok (triggered, s', _) =>
          match run_evaluations dev sem events clock_skew_offset now context
              string_matchers direct_comparison definitions check_product n s' with
          | .error er => .error er
          | .ok (rest, sf) => .ok (triggered :: rest, sf)

/-- A boolean connective as a plain boolean function (spec-side helper for
stating what a logical chain computes). -/
def applyBoolOp : BoolOp → Bool → Bool → Bool
  | .andOp, a, b => a && b
  | .orOp, a, b => a || b

/-- The pairwise chain semantics a logical token list actually computes:
true exactly when every adjacent operand pair satisfies its connective, the
left value being replaced by the right operand at each step. -/
def boolChain : Bool → List (BoolOp × Bool) → Bool
  | _, [] => true
  | b0, (op, b1) :: rest => if applyBoolOp op b0 b1 then boolChain b1 rest else false

/-- The parsed form of a condition string "time==N". -/
def time_condition (n : ℚ) : Condition :=
  ⟨some (.cmp (.keyword .time) [(.eq, .num n)])⟩

/-- The parsed form of a condition string "period==P" for a period name P. -/
def period_condition (p : String) : Condition :=
  ⟨some (.cmp (.keyword .period) [(.eq, .var p)])⟩

/-- Setting the evaluation time leaves the last-result hash untouched. -/
theorem get_last_result_set_eval_time (r : RedisEventDefinitions) (now : ℚ)
    (k k' : String) :
    (r.set_eval_time now k).get_last_result k' = r.get_last_result k' := rfl

/-- Reading back the result just stored under a key. -/
theorem get_last_result_set_last_result_self (r : RedisEventDefinitions)
    (k : String) (b : Bool) :
    (r.set_last_result k (.bool b)).get_last_result k = b := by
  cases b <;>
    simp [RedisEventDefinitions.set_last_result, RedisEventDefinitions.get_last_result,
      hset, List.lookup]

/-- Truthiness of a Python and/or of two booleans is the boolean
connective. -/
theorem truthy_pyLogical (op : BoolOp) (a b : Bool) :
    truthy (pyLogical op (.bool a) (.bool b)) = applyBoolOp op a b := by
  cases op <;> cases a <;> cases b <;> rfl

/-- The logical-operator loop over boolean literal operands computes the
pairwise chain. -/
theorem logLoop_boolChain (ops : List (BoolOp × Bool)) (b0 : Bool) (context : Ctx)
    (last_eval_time now : ℚ) :
    logLoop context last_eval_time now (.bool b0)
        (ops.map (fun p => (p.1, Expr.bool p.2)))
      = .ok (.bool (boolChain b0 ops)) := by
  induction ops generalizing b0 with
  | nil => rfl
  | cons hd tl ih =>
      obtain ⟨op, b1⟩ := hd
      simp only [List.map_cons, logLoop, Expr.eval, truthy_pyLogical, boolChain]
      by_cases h : applyBoolOp op b0 b1 = true
      · simp [h, ih]
      · simp [Bool.not_eq_true] at h
        simp [h]

/-- A pairwise all-and chain starting from True is the conjunction of the
remaining operands. -/
theorem boolChain_true_and (tl : List Bool) :
    boolChain true (tl.map (fun b => (BoolOp.andOp, b))) = tl.all id := by
  induction tl with
  | nil => rfl
  | cons b r ih =>
      cases b <;> simp [boolChain, applyBoolOp, ih]

/-- C4: debounce_allow_triggered_event returns True exactly when the
condition text contains "time==" (debounce disabled entirely) or no recorded
event for this (device, definition) pair was created within the trailing
debounce_window seconds; in particular a "time==" condition is never
suppressed, and a recorded in-window event for the pair suppresses any
condition without a "time==" term. -/
theorem debounce_allow_iff (dev : AbstractDevice) (events : List Event) (now : ℚ)
    (ed : EventDefinition) :
    (dev.debounce_allow_triggered_event events now ed = true ↔
      (strContains ed.condition "time==" = true ∨
        (events.filter (fun e => e.device == dev.id && e.definition == ed.id &&
          decide (now - ed.debounce_window ≤ e.created_at))).length = 0))
    ∧ (strContains ed.condition "time==" = true →
        dev.debounce_allow_triggered_event events now ed = true)
    ∧ (∀ e : Event, e ∈ events → e.device = dev.id → e.definition = ed.id →
        now - ed.debounce_window ≤ e.created_at →
        strContains ed.condition "time==" = false →
        dev.debounce_allow_triggered_event events now ed = false) := by
  refine ⟨?_, ?_, ?_⟩
  · by_cases h : strContains ed.condition "time==" = true
    · simp [AbstractDevice.debounce_allow_triggered_event, h]
    · rw [Bool.not_eq_true] at h
      simp [AbstractDevice.debounce_allow_triggered_event, h]
  · intro h
    simp [AbstractDevice.debounce_allow_triggered_event, h]
  · intro e he hdev hdef ht hfalse
    have hmem : e ∈ events.filter (fun e => e.device == dev.id &&
        e.definition == ed.id && decide (now - ed.debounce_window ≤ e.created_at)) := by
      refine List.mem_filter.mpr ⟨he, ?_⟩
      simp [hdev, hdef, ht]
    have hlen : (events.filter (fun e => e.device == dev.id &&
        e.definition == ed.id && decide (now - ed.debounce_window ≤ e.created_at))).length
          ≠ 0 := by
      intro h0
      rw [List.length_eq_zero] at h0
      rw [h0] at hmem
      simp at hmem
    simp [AbstractDevice.debounce_allow_triggered_event, hfalse]
    exact ⟨e, he, hdev, hdef, by linarith⟩

/-- Witness for C4: a device 1 / definition 7 event created at 999, inside
the 600-second window before now = 1000, suppresses the non-"time==" rule. -/
theorem debounce_allow_iff_witness :
    (⟨1, 7, false, 999⟩ : Event) ∈ [(⟨1, 7, false, 999⟩ : Event)]
    ∧ (1000 : ℚ) - (600 : ℚ) ≤ 999
    ∧ strContains "temp==10" "time==" = false
    ∧ AbstractDevice.debounce_allow_triggered_event
        ⟨1, .dict [], .dict [], [], []⟩ [⟨1, 7, false, 999⟩] 1000
        ⟨7, true, "r", "temp==10", 600, false, false, false⟩ = false := by
  refine ⟨by simp, by norm_num, rfl, ?_⟩
  exact (debounce_allow_iff ⟨1, .dict [], .dict [], [], []⟩ [⟨1, 7, false, 999⟩] 1000
      ⟨7, true, "r", "temp==10", 600, false, false, false⟩).2.2
    ⟨1, 7, false, 999⟩ (by simp) rfl rfl (by norm_num) rfl

/-- C5: evaluating a condition "time==N" yields True exactly when the last
evaluation time lies strictly before today-at-midnight plus N seconds and
now is at or past that instant; once the last evaluation time is at or past
that instant the evaluation yields False (fires at most once per day). -/
theorem evaluate_time_window_iff (n last_eval_time now : ℚ) (context : Ctx) :
    (Condition.evaluate (time_condition n) context last_eval_time now
      = .ok (.bool (decide (last_eval_time < midnightOf now + n ∧
          midnightOf now + n ≤ now))))
    ∧ (midnightOf now + n ≤ last_eval_time →
        Condition.evaluate (time_condition n) context last_eval_time now
          = .ok (.bool false)) := by
  constructor
  · rfl
  · intro h
    have hne : ¬(last_eval_time < midnightOf now + n ∧ midnightOf now + n ≤ now) :=
      fun hc => absurd hc.1 (not_lt.mpr h)
    have e : Condition.evaluate (time_condition n) context last_eval_time now
        = .ok (.bool (decide (last_eval_time < midnightOf now + n ∧
            midnightOf now + n ≤ now))) := rfl
    rw [e, decide_eq_false hne]

/-- Witness for C5: with now = 10000 (so midnight is 0) and N = 7200, a last
evaluation time of 10000 is already past the 02:00 instant, so "time==7200"
evaluates to False. -/
theorem evaluate_time_window_iff_witness :
    midnightOf 10000 + 7200 ≤ (10000 : ℚ)
    ∧ Condition.evaluate (time_condition 7200) [] 10000 10000 = .ok (.bool false) := by
  constructor
  · norm_num [midnightOf]
  · exact (evaluate_time_window_iff 7200 10000 10000 []).2 (by norm_num [midnightOf])

/-- C6: evaluating "period==P" yields True exactly when now minus the last
evaluation time strictly exceeds the fixed duration of P: 60 seconds for
minutely, 3600 for hourly, 86400 for daily, 7 days for weekly, 4 weeks for
monthly and 52 weeks for yearly (fixed approximations); a last evaluation
exactly two weeks ago satisfies weekly, one under a day ago does not. -/
theorem evaluate_period_fixed_durations (last_eval_time now : ℚ) (context : Ctx) :
    (Condition.evaluate (period_condition "minutely") context last_eval_time now
      = .ok (.bool (decide (now - last_eval_time > 60))))
    ∧ (Condition.evaluate (period_condition "hourly") context last_eval_time now
      = .ok (.bool (decide (now - last_eval_time > 3600))))
    ∧ (Condition.evaluate (period_condition "daily") context last_eval_time now
      = .ok (.bool (decide (now - last_eval_time > 86400))))
    ∧ (Condition.evaluate (period_condition "weekly") context last_eval_time now
      = .ok (.bool (decide (now - last_eval_time > 604800))))
    ∧ (Condition.evaluate (period_condition "monthly") context last_eval_time now
      = .ok (.bool (decide (now - last_eval_time > 2419200))))
    ∧ (Condition.evaluate (period_condition "yearly") context last_eval_time now
      = .ok (.bool (decide (now - last_eval_time > 31449600))))
    ∧ (Condition.evaluate (period_condition "weekly") context (now - 1209600) now
      = .ok (.bool true))
    ∧ (∀ d : ℚ, d < 86400 →
        Condition.evaluate (period_condition "weekly") context (now - d) now
          = .ok (.bool false)) := by
  refine ⟨rfl, rfl, rfl, rfl, rfl, rfl, ?_, ?_⟩
  · have h : now - (now - 1209600) > (604800 : ℚ) := by linarith
    have e : Condition.evaluate (period_condition "weekly") context (now - 1209600) now
        = .ok (.bool (decide (now - (now - 1209600) > (604800 : ℚ)))) := rfl
    rw [e, decide_eq_true h]
  · intro d hd
    have hne : ¬(now - (now - d) > (604800 : ℚ)) := by
      intro hc
      have hdd : now - (now - d) = d := by ring
      rw [hdd] at hc
      linarith
    have e : Condition.evaluate (period_condition "weekly") context (now - d) now
        = .ok (.bool (decide (now - (now - d) > (604800 : ℚ)))) := rfl
    rw [e, decide_eq_false hne]

/-- Witness for C6: one hour (3600 seconds, under a day) since the last
evaluation does not satisfy "period==weekly". -/
theorem evaluate_period_fixed_durations_witness :
    (3600 : ℚ) < 86400
    ∧ Condition.evaluate (period_condition "weekly") [] (1400000000 - 3600) 1400000000
      = .ok (.bool false) := by
  constructor
  · norm_num
  · exact (evaluate_period_fixed_durations (1400000000 - 3600) 1400000000 []).2.2.2.2.2.2.2
      3600 (by norm_num)

/-- C7 counterexample: the claim predicts that a pure disjunction chain
evaluates to the disjunction of its operands, so "true || false || false"
would be True; the evaluator returns False, because after a truthy or-step
the left value becomes the RIGHT operand (val1 = val2), not the folded
result. -/
theorem logical_chain_fold_counterexample :
    Condition.evaluate
        ⟨some (.logical (.bool true) [(.orOp, .bool false), (.orOp, .bool false)])⟩
        [] 0 0
      = .ok (.bool false)
    ∧ (true || false || false) = true := ⟨rfl, rfl⟩

/-- C7 amended: a logical chain over boolean operands evaluates pairwise,
not as a fold: it is True exactly when every adjacent operand pair satisfies
its connective, the left value being replaced by the right operand after
each step; for a pure conjunction chain this coincides with the conjunction
of all operands, but a pure disjunction chain is not the disjunction. -/
theorem logical_chain_pairwise :
    (∀ (b0 : Bool) (ops : List (BoolOp × Bool)) (context : Ctx)
        (last_eval_time now : ℚ),
      Condition.evaluate
          ⟨some (.logical (.bool b0) (ops.map (fun p => (p.1, Expr.bool p.2))))⟩
          context last_eval_time now
        = .ok (.bool (boolChain b0 ops)))
    ∧ (∀ (b0 b1 : Bool) (tl : List Bool) (context : Ctx) (last_eval_time now : ℚ),
      Condition.evaluate
          ⟨some (.logical (.bool b0) ((BoolOp.andOp, Expr.bool b1) ::
              tl.map (fun b => (BoolOp.andOp, Expr.bool b))))⟩
          context last_eval_time now
        = .ok (.bool (b0 && (b1 && tl.all id)))) := by
  have key : ∀ (b0 : Bool) (ops : List (BoolOp × Bool)) (context : Ctx)
      (last_eval_time now : ℚ),
      Condition.evaluate
          ⟨some (.logical (.bool b0) (ops.map (fun p => (p.1, Expr.bool p.2))))⟩
          context last_eval_time now
        = .ok (.bool (boolChain b0 ops)) := by
    intro b0 ops context last_eval_time now
    exact logLoop_boolChain ops b0 context last_eval_time now
  refine ⟨key, ?_⟩
  intro b0 b1 tl context last_eval_time now
  have h1 := key b0 ((BoolOp.andOp, b1) :: tl.map (fun b => (BoolOp.andOp, b)))
    context last_eval_time now
  simp only [List.map_cons, List.map_map] at h1
  have h2 : ((fun p : BoolOp × Bool => (p.1, Expr.bool p.2)) ∘
      (fun b => (BoolOp.andOp, b))) = fun b => (BoolOp.andOp, Expr.bool b) := rfl
  rw [h2] at h1
  rw [h1]
  cases b0 <;> cases b1 <;>
    simp [boolChain, applyBoolOp, boolChain_true_and]

/-- C8 counterexample: for the comparison "time>7200" (keyword first
operand, operator other than equality), with last_eval_time 0 and now 10000
(02:46:40 after midnight), the evaluator returns True per the special semantics of the
time keyword, while the generic numeric comparison with the
placeholder value True (i.e. 1 > 7200) is False. -/
theorem keyword_comparison_counterexample :
    Condition.evaluate ⟨some (.cmp (.keyword .time) [(.gt, .num 7200)])⟩ [] 0 10000
      = .ok (.bool true)
    ∧ cmpLoop [] 0 10000 (.bool true) [(.gt, .num 7200)] = false := by
  constructor
  · have e : Condition.evaluate ⟨some (.cmp (.keyword .time) [(.gt, .num 7200)])⟩ [] 0 10000
        = .ok (.bool (evaluate_time 7200 0 10000)) := rfl
    have hm : midnightOf 10000 = 0 := by norm_num [midnightOf]
    have h : evaluate_time 7200 0 10000 = true := by
      rw [show evaluate_time 7200 0 10000
          = decide ((0 : ℚ) < midnightOf 10000 + 7200 ∧ midnightOf 10000 + 7200 ≤ 10000)
          from rfl, hm]
      norm_num
    rw [e, h]
  · rfl

/-- C8 amended: a comparison chain whose first operand is a keyword always
dispatches to the special time/day/period semantics of the keyword, ignoring the
comparison operator entirely (it is treated as the assumed equality): the
result equals that of the same chain with the operator replaced by equality,
and for the time keyword equals evaluate_time for every operator. -/
theorem keyword_comparison_ignores_operator :
    (∀ (k : Keyword) (op : CmpOp) (e : Expr) (tl : List (CmpOp × Expr))
        (context : Ctx) (last_eval_time now : ℚ),
      Expr.eval (.cmp (.keyword k) ((op, e) :: tl)) context last_eval_time now
        = Expr.eval (.cmp (.keyword k) ((CmpOp.eq, e) :: tl)) context last_eval_time now)
    ∧ (∀ (op : CmpOp) (n : ℚ) (context : Ctx) (last_eval_time now : ℚ),
      Expr.eval (.cmp (.keyword .time) [(op, .num n)]) context last_eval_time now
        = .ok (.bool (evaluate_time n last_eval_time now))) :=
  ⟨fun _ _ _ _ _ _ _ => rfl, fun _ _ _ _ _ => rfl⟩

/-- C9 counterexample: a colon path that traverses a non-mapping value in
the first operand raises (TypeError is not caught there), rather than
evaluating to False; and a not-equal comparison against a missing variable
evaluates to True, not False. -/
theorem missing_variable_counterexample :
    Condition.evaluate ⟨some (.cmp (.var "a:b") [(.eq, .bool true)])⟩
        [("a", .num 5)] 0 0
      = .error ()
    ∧ Condition.evaluate ⟨some (.cmp (.var "a") [(.ne, .num 5)])⟩ [] 0 0
      = .ok (.bool true) := by
  refine ⟨rfl, ?_⟩
  simp [Condition.evaluate, Expr.eval, evalVar, colonSplit, colonSplitAux, colonLookup,
    cmpLoop, pyCmp, pyEq, List.lookup]

/-- C9 amended: a variable path absent from the context (KeyError) resolves
to None, and as first operand of an equality comparison against a boolean
yields False without raising, but under a not-equal comparison yields True;
when the colon-path traversal hits a non-mapping value, the TypeError
propagates out of Condition.evaluate instead of producing False. -/
theorem missing_variable_amended :
    (∀ (context : Ctx) (name : String) (last_eval_time now : ℚ),
      colonLookup (.dict context) (colonSplit name) = .error .keyError →
        Condition.evaluate ⟨some (.cmp (.var name) [(.eq, .bool true)])⟩
            context last_eval_time now
          = .ok (.bool false)
        ∧ Condition.evaluate ⟨some (.cmp (.var name) [(.ne, .bool true)])⟩
            context last_eval_time now
          = .ok (.bool true))
    ∧ (∀ (context : Ctx) (name : String) (last_eval_time now : ℚ),
      colonLookup (.dict context) (colonSplit name) = .error .typeError →
        Condition.evaluate ⟨some (.cmp (.var name) [(.eq, .bool true)])⟩
            context last_eval_time now
          = .error ()) := by
  constructor
  · intro context name last_eval_time now h
    constructor
    · simp [Condition.evaluate, Expr.eval, evalVar, h, cmpLoop, pyCmp, pyEq]
    · simp [Condition.evaluate, Expr.eval, evalVar, h, cmpLoop, pyCmp, pyEq]
  · intro context name last_eval_time now h
    simp [Condition.evaluate, Expr.eval, evalVar, h]

/-- Witness for the amended C9: the path "non_existant:field" is a KeyError
in the empty context and the equality comparison yields False; the path
"a:b" is a TypeError in a context binding "a" to the number 5, and the
evaluation raises. -/
theorem missing_variable_amended_witness :
    colonLookup (.dict []) (colonSplit "non_existant:field") = .error .keyError
    ∧ Condition.evaluate
        ⟨some (.cmp (.var "non_existant:field") [(.eq, .bool true)])⟩ [] 100 0
      = .ok (.bool false)
    ∧ colonLookup (.dict [("a", .num 5)]) (colonSplit "a:b") = .error .typeError
    ∧ Condition.evaluate ⟨some (.cmp (.var "a:b") [(.eq, .bool true)])⟩
        [("a", .num 5)] 0 0
      = .error () :=
  ⟨rfl,
   (missing_variable_amended.1 [] "non_existant:field" 100 0 rfl).1,
   rfl,
   missing_variable_amended.2 [("a", .num 5)] "a:b" 0 0 rfl⟩

/-- Normal form of the per-definition step on the full evaluation path: for
an enabled definition with no direct-comparison match that passes the
string-matcher filter, whose condition evaluates without raising, the step
reads the old evaluation time, writes the new one, evaluates with the old
value, reads the previous result, triggers exactly when the result is truthy
and debounce allows and the previous result was false, and stores the new
result. -/
theorem eval_def_step_full_path (dev : AbstractDevice) (sem : ConditionSem)
    (events : List Event) (clock_skew_offset now : ℚ) (context : Ctx)
    (string_matchers : List String) (direct_comparison : String)
    (s : RedisEventDefinitions) (ed : EventDefinition) (v : Value)
    (hen : ed.enabled = true)
    (hdc : direct_match direct_comparison ed.condition = false)
    (hsm : passes_string_matchers string_matchers ed.condition = true)
    (hsem : sem ed.condition context
        (s.get_eval_time clock_skew_offset now (debounce_key dev.id ed.id)) now
      = .ok v) :
    eval_def_step dev sem events clock_skew_offset now context
        string_matchers direct_comparison s ed
      = .ok (truthy v && (dev.debounce_allow_triggered_event events now ed &&
               !(s.get_last_result (debounce_key dev.id ed.id))),
             (s.set_eval_time now (debounce_key dev.id ed.id)).set_last_result
               (debounce_key dev.id ed.id) v,
             [.getEvalTimeOp (debounce_key dev.id ed.id)
                (s.get_eval_time clock_skew_offset now (debounce_key dev.id ed.id)),
              .setEvalTimeOp (debounce_key dev.id ed.id) ((⌊now⌋ : ℤ) : ℚ),
              .evalConditionOp ed.condition
                (s.get_eval_time clock_skew_offset now (debounce_key dev.id ed.id)),
              .getLastResultOp (debounce_key dev.id ed.id)
                (s.get_last_result (debounce_key dev.id ed.id)),
              .setLastResultOp (debounce_key dev.id ed.id) v]) := by
  simp [eval_def_step, hen, hdc, hsm, hsem, get_last_result_set_eval_time]

/-- Normal form of the per-definition step on the direct-comparison fast
path: an enabled definition whose condition the direct comparison matches
exactly is triggered exactly when debounce allows, the store is untouched
and no store operation happens. -/
theorem eval_def_step_fast_path (dev : AbstractDevice) (sem : ConditionSem)
    (events : List Event) (clock_skew_offset now : ℚ) (context : Ctx)
    (string_matchers : List String) (direct_comparison : String)
    (s : RedisEventDefinitions) (ed : EventDefinition)
    (hen : ed.enabled = true)
    (hdc : direct_match direct_comparison ed.condition = true) :
    eval_def_step dev sem events clock_skew_offset now context
        string_matchers direct_comparison s ed
      = .ok (dev.debounce_allow_triggered_event events now ed, s, []) := by
  simp [eval_def_step, hen, hdc]

/-- Evaluating a single explicitly-passed definition is the step applied
once, after the settings merge. -/
theorem evaluate_all_singleton (dev : AbstractDevice) (sem : ConditionSem)
    (events : List Event) (clock_skew_offset now : ℚ) (context context' : Ctx)
    (string_matchers : List String) (direct_comparison : String)
    (s s' : RedisEventDefinitions) (ed : EventDefinition) (appended : Bool)
    (defOps : List EvalOp)
    (hctx : withSettings context dev.settings dev.product_settings = .ok context')
    (hstep : eval_def_step dev sem events clock_skew_offset now context'
        string_matchers direct_comparison s ed = .ok (appended, s', defOps)) :
    dev.evaluate_all_event_definitions sem events clock_skew_offset now context s
        string_matchers direct_comparison [ed] false
      = .ok ((if appended then [ed] else []), s', defOps) := by
  unfold AbstractDevice.evaluate_all_event_definitions
  rw [hctx]
  simp only [List.isEmpty_cons, if_neg, Bool.false_eq_true, if_false, eval_defs_loop, hstep]
  cases appended <;> simp [eval_defs_loop]

/-- C1: on the full path (enabled, no direct-comparison match, passing the
string-matcher filter), with a condition evaluating to the boolean b, the
definition lands in the triggered list exactly when b is true AND the
debounce gate allows AND the stored last result for "device:definition" was
false or absent; and whatever happened, b is stored as the new last result
for that key. -/
theorem evaluate_full_path_trigger_and_store (dev : AbstractDevice)
    (sem : ConditionSem) (events : List Event) (clock_skew_offset now : ℚ)
    (context context' : Ctx) (s0 : RedisEventDefinitions)
    (string_matchers : List String) (direct_comparison : String)
    (ed : EventDefinition) (b : Bool)
    (hen : ed.enabled = true)
    (hdc : direct_match direct_comparison ed.condition = false)
    (hsm : passes_string_matchers string_matchers ed.condition = true)
    (hctx : withSettings context dev.settings dev.product_settings = .ok context')
    (hsem : sem ed.condition context'
        (s0.get_eval_time clock_skew_offset now (debounce_key dev.id ed.id)) now
      = .ok (.bool b)) :
    ∃ s' ops,
      dev.evaluate_all_event_definitions sem events clock_skew_offset now context s0
          string_matchers direct_comparison [ed] false
        = .ok ((if b && (dev.debounce_allow_triggered_event events now ed &&
                  !(s0.get_last_result (debounce_key dev.id ed.id)))
                then [ed] else []), s', ops)
      ∧ s'.get_last_result (debounce_key dev.id ed.id) = b := by
  have hstep := eval_def_step_full_path dev sem events clock_skew_offset now context'
    string_matchers direct_comparison s0 ed (.bool b) hen hdc hsm hsem
  have hrun := evaluate_all_singleton dev sem events clock_skew_offset now context
    context' string_matchers direct_comparison s0 _ ed _ _ hctx hstep
  exact ⟨_, _, hrun, get_last_result_set_last_result_self _ _ b⟩

/-- Witness for C1: device 1, definition 7 with condition "temp==10", empty
store and event log, a semantics returning True: the definition is triggered
and True is stored as the last result under "1:7". -/
theorem evaluate_full_path_trigger_and_store_witness :
    direct_match "" "temp==10" = false
    ∧ passes_string_matchers [] "temp==10" = true
    ∧ (∃ s' ops,
        AbstractDevice.evaluate_all_event_definitions
            ⟨1, .dict [], .dict [], [], []⟩ (fun _ _ _ _ => .ok (.bool true)) [] 5 1000
            [] ⟨[], []⟩ [] "" [⟨7, true, "ref", "temp==10", 600, false, false, false⟩]
            false
          = .ok ([⟨7, true, "ref", "temp==10", 600, false, false, false⟩], s', ops)
        ∧ s'.get_last_result (debounce_key 1 7) = true) := by
  refine ⟨rfl, rfl, ?_⟩
  obtain ⟨s', ops, h1, h2⟩ := evaluate_full_path_trigger_and_store
    ⟨1, .dict [], .dict [], [], []⟩ (fun _ _ _ _ => .ok (.bool true)) [] 5 1000
    [] [("settings", .dict [("device", .dict []), ("product", .dict [])])]
    ⟨[], []⟩ [] "" ⟨7, true, "ref", "temp==10", 600, false, false, false⟩ true
    rfl rfl rfl rfl rfl
  have hdeb : AbstractDevice.debounce_allow_triggered_event
      ⟨1, .dict [], .dict [], [], []⟩ [] 1000
      ⟨7, true, "ref", "temp==10", 600, false, false, false⟩ = true := rfl
  have hlast : RedisEventDefinitions.get_last_result ⟨[], []⟩ (debounce_key 1 7)
      = false := rfl
  rw [hdeb, hlast] at h1
  simp only [Bool.not_false, Bool.and_self, if_true] at h1
  exact ⟨s', ops, h1, h2⟩

/-- C2: on the full path the per-definition store operations happen in the
order: read the old evaluation time, write the new (truncated) one, evaluate
the condition against the OLD value just read, then read and write the last
result; the condition is never evaluated against the newly written time. -/
theorem evaluate_store_op_ordering (dev : AbstractDevice)
    (sem : ConditionSem) (events : List Event) (clock_skew_offset now : ℚ)
    (context context' : Ctx) (s0 : RedisEventDefinitions)
    (string_matchers : List String) (direct_comparison : String)
    (ed : EventDefinition) (v : Value)
    (hen : ed.enabled = true)
    (hdc : direct_match direct_comparison ed.condition = false)
    (hsm : passes_string_matchers string_matchers ed.condition = true)
    (hctx : withSettings context dev.settings dev.product_settings = .ok context')
    (hsem : sem ed.condition context'
        (s0.get_eval_time clock_skew_offset now (debounce_key dev.id ed.id)) now
      = .ok v) :
    ∃ triggered s',
      dev.evaluate_all_event_definitions sem events clock_skew_offset now context s0
          string_matchers direct_comparison [ed] false
        = .ok (triggered, s',
            [.getEvalTimeOp (debounce_key dev.id ed.id)
               (s0.get_eval_time clock_skew_offset now (debounce_key dev.id ed.id)),
             .setEvalTimeOp (debounce_key dev.id ed.id) ((⌊now⌋ : ℤ) : ℚ),
             .evalConditionOp ed.condition
               (s0.get_eval_time clock_skew_offset now (debounce_key dev.id ed.id)),
             .getLastResultOp (debounce_key dev.id ed.id)
               (s0.get_last_result (debounce_key dev.id ed.id)),
             .setLastResultOp (debounce_key dev.id ed.id) v]) := by
  have hstep := eval_def_step_full_path dev sem events clock_skew_offset now context'
    string_matchers direct_comparison s0 ed v hen hdc hsm hsem
  exact ⟨_, _, evaluate_all_singleton dev sem events clock_skew_offset now context
    context' string_matchers direct_comparison s0 _ ed _ _ hctx hstep⟩

/-- Witness for C2: with the empty store and now = 1000 (skew 5), the trace
of the single full-path evaluation is exactly: read eval time 1005, write
eval time 1000, evaluate "temp==10" against the old value 1005, read last
result false, write the new result. -/
theorem evaluate_store_op_ordering_witness :
    direct_match "" "temp==10" = false
    ∧ RedisEventDefinitions.get_eval_time ⟨[], []⟩ 5 1000 (debounce_key 1 7) = 1005
    ∧ (∃ triggered s',
        AbstractDevice.evaluate_all_event_definitions
            ⟨1, .dict [], .dict [], [], []⟩ (fun _ _ _ _ => .ok (.bool true)) [] 5 1000
            [] ⟨[], []⟩ [] "" [⟨7, true, "ref", "temp==10", 600, false, false, false⟩]
            false
          = .ok (triggered, s',
              [.getEvalTimeOp (debounce_key 1 7) 1005,
               .setEvalTimeOp (debounce_key 1 7) 1000,
               .evalConditionOp "temp==10" 1005,
               .getLastResultOp (debounce_key 1 7) false,
               .setLastResultOp (debounce_key 1 7) (.bool true)])) := by
  refine ⟨rfl, by norm_num [RedisEventDefinitions.get_eval_time, List.lookup], ?_⟩
  obtain ⟨triggered, s', h⟩ := evaluate_store_op_ordering
    ⟨1, .dict [], .dict [], [], []⟩ (fun _ _ _ _ => .ok (.bool true)) [] 5 1000
    [] [("settings", .dict [("device", .dict []), ("product", .dict [])])]
    ⟨[], []⟩ [] "" ⟨7, true, "ref", "temp==10", 600, false, false, false⟩ (.bool true)
    rfl rfl rfl rfl rfl
  refine ⟨triggered, s', ?_⟩
  have e1 : RedisEventDefinitions.get_eval_time ⟨[], []⟩ 5 1000 (debounce_key 1 7)
      = 1005 := by norm_num [RedisEventDefinitions.get_eval_time, List.lookup]
  have e2 : RedisEventDefinitions.get_last_result ⟨[], []⟩ (debounce_key 1 7)
      = false := rfl
  have e3 : (((⌊(1000 : ℚ)⌋ : ℤ) : ℚ)) = 1000 := by norm_num
  rw [e1, e2, e3] at h
  exact h

/-- Once the stored last result for the key is true, every further call with
a continuously-true condition triggers nothing and keeps the stored last
result true. -/
theorem run_eval_suppressed (dev : AbstractDevice) (sem : ConditionSem)
    (events : List Event) (clock_skew_offset now : ℚ) (context context' : Ctx)
    (string_matchers : List String) (ed : EventDefinition)
    (hen : ed.enabled = true)
    (hsm : passes_string_matchers string_matchers ed.condition = true)
    (hctx : withSettings context dev.settings dev.product_settings = .ok context')
    (hsem : ∀ t, sem ed.condition context' t now = .ok (.bool true)) :
    ∀ (n : ℕ) (s : RedisEventDefinitions),
      s.get_last_result (debounce_key dev.id ed.id) = true →
      ∃ sf, run_evaluations dev sem events clock_skew_offset now context
          string_matchers "" [ed] false n s
        = .ok (List.replicate n [], sf) := by
  intro n
  induction n with
  | zero => exact fun s _ => ⟨s, rfl⟩
  | succ n ih =>
      intro s hs
      have hdc : direct_match "" ed.condition = false := by simp [direct_match]
      have hstep := eval_def_step_full_path dev sem events clock_skew_offset now
        context' string_matchers "" s ed (.bool true) hen hdc hsm (hsem _)
      have hrun := evaluate_all_singleton dev sem events clock_skew_offset now context
        context' string_matchers "" s _ ed _ _ hctx hstep
      rw [hs] at hrun
      simp only [Bool.not_true, Bool.and_false, Bool.false_eq_true, if_false] at hrun
      obtain ⟨sf, hrest⟩ := ih
        ((s.set_eval_time now (debounce_key dev.id ed.id)).set_last_result
          (debounce_key dev.id ed.id) (.bool true))
        (get_last_result_set_last_result_self _ _ true)
      refine ⟨sf, ?_⟩
      simp only [run_evaluations, hrun, hrest, List.replicate_succ]

/-- C3: edge-triggering idempotence: for an enabled definition whose
condition stays true across n+1 consecutive calls sharing the store, with
debounce allowing, no direct comparison and no external reset of the stored
last result (initially false), exactly the first call returns the definition
and every later call returns the empty list. -/
theorem edge_trigger_idempotence (dev : AbstractDevice) (sem : ConditionSem)
    (events : List Event) (clock_skew_offset now : ℚ) (context context' : Ctx)
    (s0 : RedisEventDefinitions) (string_matchers : List String)
    (ed : EventDefinition) (n : ℕ)
    (hen : ed.enabled = true)
    (hsm : passes_string_matchers string_matchers ed.condition = true)
    (hdeb : dev.debounce_allow_triggered_event events now ed = true)
    (hctx : withSettings context dev.settings dev.product_settings = .ok context')
    (hsem : ∀ t, sem ed.condition context' t now = .ok (.bool true))
    (hlast : s0.get_last_result (debounce_key dev.id ed.id) = false) :
    ∃ sf, run_evaluations dev sem events clock_skew_offset now context
        string_matchers "" [ed] false (n + 1) s0
      = .ok ([ed] :: List.replicate n [], sf) := by
  have hdc : direct_match "" ed.condition = false := by simp [direct_match]
  have hstep := eval_def_step_full_path dev sem events clock_skew_offset now
    context' string_matchers "" s0 ed (.bool true) hen hdc hsm (hsem _)
  have hrun := evaluate_all_singleton dev sem events clock_skew_offset now context
    context' string_matchers "" s0 _ ed _ _ hctx hstep
  rw [hlast, hdeb] at hrun
  simp only [Bool.not_false, Bool.and_self, if_true] at hrun
  obtain ⟨sf, hrest⟩ := run_eval_suppressed dev sem events clock_skew_offset now
    context context' string_matchers ed hen hsm hctx hsem n
    ((s0.set_eval_time now (debounce_key dev.id ed.id)).set_last_result
      (debounce_key dev.id ed.id) (.bool true))
    (get_last_result_set_last_result_self _ _ true)
  refine ⟨sf, ?_⟩
  simp [run_evaluations, hrun, hrest, truthy]

/-- Witness for C3: three consecutive calls on device 1, definition 7 with a
continuously-true condition: the first call triggers, the next two do not. -/
theorem edge_trigger_idempotence_witness :
    passes_string_matchers [] "temp==10" = true
    ∧ AbstractDevice.debounce_allow_triggered_event
        ⟨1, .dict [], .dict [], [], []⟩ [] 1000
        ⟨7, true, "ref", "temp==10", 600, false, false, false⟩ = true
    ∧ RedisEventDefinitions.get_last_result ⟨[], []⟩ (debounce_key 1 7) = false
    ∧ (∃ sf, run_evaluations ⟨1, .dict [], .dict [], [], []⟩
        (fun _ _ _ _ => .ok (.bool true)) [] 5 1000 [] [] ""
        [⟨7, true, "ref", "temp==10", 600, false, false, false⟩] false 3 ⟨[], []⟩
      = .ok ([[⟨7, true, "ref", "temp==10", 600, false, false, false⟩], [], []], sf)) := by
  refine ⟨rfl, rfl, rfl, ?_⟩
  obtain ⟨sf, h⟩ := edge_trigger_idempotence
    ⟨1, .dict [], .dict [], [], []⟩ (fun _ _ _ _ => .ok (.bool true)) [] 5 1000
    [] [("settings", .dict [("device", .dict []), ("product", .dict [])])]
    ⟨[], []⟩ [] ⟨7, true, "ref", "temp==10", 600, false, false, false⟩ 2
    rfl rfl rfl rfl (fun _ => rfl) rfl
  exact ⟨sf, by simpa using h⟩

/-- C10: when the direct comparison equals the (necessarily non-empty)
condition of an enabled definition exactly, the definition is returned
subject only to the debounce gate, the evaluation-time store is untouched
and no store operation is performed; consequently, while the debounce gate
allows, every one of n consecutive calls returns the definition again with
the store still unchanged. -/
theorem direct_comparison_fast_path (dev : AbstractDevice) (sem : ConditionSem)
    (events : List Event) (clock_skew_offset now : ℚ) (context context' : Ctx)
    (s0 : RedisEventDefinitions) (string_matchers : List String)
    (ed : EventDefinition) (n : ℕ)
    (hen : ed.enabled = true)
    (hne : ed.condition ≠ "")
    (hctx : withSettings context dev.settings dev.product_settings = .ok context') :
    (dev.evaluate_all_event_definitions sem events clock_skew_offset now context s0
        string_matchers ed.condition [ed] false
      = .ok ((if dev.debounce_allow_triggered_event events now ed
              then [ed] else []), s0, []))
    ∧ (dev.debounce_allow_triggered_event events now ed = true →
        run_evaluations dev sem events clock_skew_offset now context
            string_matchers ed.condition [ed] false n s0
          = .ok (List.replicate n [ed], s0)) := by
  have hdc : direct_match ed.condition ed.condition = true := by
    simp [direct_match, hne]
  have hstep := eval_def_step_fast_path dev sem events clock_skew_offset now
    context' string_matchers ed.condition s0 ed hen hdc
  have hrun := evaluate_all_singleton dev sem events clock_skew_offset now context
    context' string_matchers ed.condition s0 _ ed _ _ hctx hstep
  refine ⟨hrun, ?_⟩
  intro hdeb
  rw [hdeb] at hrun
  simp only [if_true] at hrun
  induction n with
  | zero => rfl
  | succ n ih =>
      simp only [run_evaluations, hrun, ih, List.replicate_succ]

/-- Witness for C10: with a "time==300" definition (debounce bypassed) and a
matching direct comparison, each of two consecutive calls returns the
definition and the store is left exactly as it started. -/
theorem direct_comparison_fast_path_witness :
    ("time==300" : String) ≠ ""
    ∧ AbstractDevice.debounce_allow_triggered_event
        ⟨1, .dict [], .dict [], [], []⟩
        [⟨1, 7, true, 999⟩] 1000
        ⟨7, true, "ref", "time==300", 600, false, false, false⟩ = true
    ∧ run_evaluations ⟨1, .dict [], .dict [], [], []⟩
        (fun _ _ _ _ => .ok (.bool false)) [⟨1, 7, true, 999⟩] 5 1000 [] [] "time==300"
        [⟨7, true, "ref", "time==300", 600, false, false, false⟩] false 2 ⟨[], []⟩
      = .ok ([[⟨7, true, "ref", "time==300", 600, false, false, false⟩],
              [⟨7, true, "ref", "time==300", 600, false, false, false⟩]], ⟨[], []⟩) := by
  refine ⟨by decide, rfl, ?_⟩
  have h := (direct_comparison_fast_path ⟨1, .dict [], .dict [], [], []⟩
    (fun _ _ _ _ => .ok (.bool false)) [⟨1, 7, true, 999⟩] 5 1000
    [] [("settings", .dict [("device", .dict []), ("product", .dict [])])]
    ⟨[], []⟩ [] ⟨7, true, "ref", "time==300", 600, false, false, false⟩ 2
    rfl (by decide) rfl).2 rfl
  simpa using h

end ZConnect
